import Mathlib

/-!
Verification of the version-3 OpenPGP signature codec
(`openpgp/packet/signature_v3.go` of ProtonMail/go-crypto, vendored).

The Go source is shallowly embedded: the byte stream becomes a `List Nat`
of byte values, `parse` consumes a list and returns either an error or the
decoded record together with the unread remainder, `Serialize` produces the
list of bytes written to the sink (also in the failing cases, where the
partially written output matters), and Go errors become constructors of an
explicit error type.

Collaborator code that lives outside this file's source (the byte-exact
multi-precision-integer codec, the legacy hash-identifier table, the
`readFull` helper and the crypto provider) is modelled from the spec; each
such definition's doc comment says so.
-/

namespace SigV3

set_option autoImplicit false

/-- Errors and abnormal outcomes of the codec.  Each constructor mirrors
one distinguishable outcome of the Go source: the
`errors.UnsupportedError` strings of `parse`, `Serialize` and
`PrepareVerify`, the `errors.InvalidArgumentError` of `Serialize`, the
`io.ErrUnexpectedEOF` that `readFull` and `MPI.ReadFrom` produce on a short
source, the explicit defensive `panic` branches of the algorithm switches
(`internalFault`), and the runtime panic of a method call on a nil
`encoding.Field` interface slot (`nilInterfacePanic` — in Go a crash, not
an error return; kept apart from every error constructor so a theorem about
an error return can never be satisfied by a panicking run). -/
inductive PgpError where
  | unsupportedVersion (v : Nat)
  | unsupportedHashedLength (n : Nat)
  | unsupportedPublicKeyAlgorithm (a : Nat)
  | unsupportedHashFunction (id : Nat)
  | unsupportedHashSerialize (h : Nat)
  | unsupportedHashVerify
  | missingSignatureMaterial
  | ioTruncation
  | internalFault
  | nilInterfacePanic
deriving DecidableEq, Repr

/-- Big-endian bytes of a 32-bit value, as `binary.BigEndian.PutUint32`
produces them. -/
def u32be (n : Nat) : List Nat :=
  [n / 16777216 % 256, n / 65536 % 256, n / 256 % 256, n % 256]

/-- The 32-bit value read back from four big-endian bytes, as
`binary.BigEndian.Uint32` computes it. -/
def beU32 (a b c d : Nat) : Nat :=
  ((a * 256 + b) * 256 + c) * 256 + d

/-- Big-endian bytes of a 64-bit value, as `binary.BigEndian.PutUint64`
produces them. -/
def u64be (n : Nat) : List Nat :=
  [n / 72057594037927936 % 256, n / 281474976710656 % 256,
   n / 1099511627776 % 256, n / 4294967296 % 256,
   n / 16777216 % 256, n / 65536 % 256, n / 256 % 256, n % 256]

/-- The 64-bit value read back from eight big-endian bytes, as
`binary.BigEndian.Uint64` computes it. -/
def beU64 (a b c d e f g h : Nat) : Nat :=
  ((((((a * 256 + b) * 256 + c) * 256 + d) * 256 + e) * 256 + f) * 256 + g)
    * 256 + h

/-- Go's conversion `uint32(x)` of a signed 64-bit seconds value: reduction
modulo 2^32, landing in `[0, 2^32)`. -/
def goUint32OfInt (x : Int) : Nat :=
  (x % (4294967296 : Int)).toNat

/-- A Go `time.Time`, reduced to the parts this codec can observe:
`Unix()` seconds and the nanosecond remainder. -/
structure GoTime where
  unixSec : Int
  nsec : Nat
deriving DecidableEq, Repr

/-- `time.Unix(sec, 0)`, the constructor `parse` uses. -/
def timeUnix (sec : Int) : GoTime := ⟨sec, 0⟩

/-- Modelled from the spec: the multi-precision-integer codec
(`encoding.MPI`, §6 "a multi-precision-integer codec that can self-describe
its own encoded length on the wire").  An MPI is a two-octet big-endian bit
count followed by `⌈bits/8⌉` octets of magnitude, per the OpenPGP MPI
encoding the packet format uses. -/
structure MPI where
  bitLength : Nat
  bytes : List Nat
deriving DecidableEq, Repr

/-- Modelled from the spec: `MPI.EncodedBytes`, the write-encoded-bytes
operation — the stored two-octet bit count followed by the stored octets. -/
def MPI.encodedBytes (m : MPI) : List Nat :=
  m.bitLength / 256 :: m.bitLength % 256 :: m.bytes

/-- Modelled from the spec: `MPI.ReadFrom`, the read-from-stream operation —
two octets of bit count, then `⌈bits/8⌉` octets; a source that cannot supply
them is a truncation error. -/
def MPI.readFrom (bs : List Nat) : Except PgpError (MPI × List Nat) :=
  match bs with
  | b0 :: b1 :: rest =>
      let bitLen := b0 * 256 + b1
      let n := (bitLen + 7) / 8
      if rest.length < n then .error .ioTruncation
      else .ok (⟨bitLen, rest.take n⟩, rest.drop n)
  | _ => .error .ioTruncation

/-- A well-formed MPI value: the stored octets fit the stored bit count and
are bytes, and the bit count fits its two-octet wire field. -/
def MPI.valid (m : MPI) : Prop :=
  m.bitLength < 65536 ∧ m.bytes.length = (m.bitLength + 7) / 8 ∧
    ∀ b ∈ m.bytes, b < 256

instance (m : MPI) : Decidable m.valid := by
  unfold MPI.valid; infer_instance

/-- Modelled from the spec: the legacy-compatible hash-identifier table
`algorithm.HashIdToHashWithSha1Md5` (§6), mapping a one-byte wire code to the
runtime's hash-algorithm identifier (Go `crypto.Hash` values: MD5 = 2,
SHA-1 = 3, SHA-224 = 4, SHA-256 = 5, SHA-384 = 6, SHA-512 = 7).  The two
weak historical digests MD5 and SHA-1 are present alongside the modern
SHA-2 family. -/
def hashIdToHashWithSha1Md5 (id : Nat) : Option Nat :=
  if id = 1 then some 2
  else if id = 2 then some 3
  else if id = 8 then some 5
  else if id = 9 then some 6
  else if id = 10 then some 7
  else if id = 11 then some 4
  else none

/-- Modelled from the spec: the reverse legacy table
`algorithm.HashToHashIdWithSha1Md5`, mapping the runtime hash-algorithm
identifier back to its one-byte wire code; an identifier with no legacy wire
code (such as the zero value of a freshly constructed record) has none. -/
def hashToHashIdWithSha1Md5 (h : Nat) : Option Nat :=
  if h = 2 then some 1
  else if h = 3 then some 2
  else if h = 5 then some 8
  else if h = 6 then some 9
  else if h = 7 then some 10
  else if h = 4 then some 11
  else none

/-- Modelled from the spec: the wire code of RSA (sign and encrypt),
`PubKeyAlgoRSA` of the packet package (RFC 4880 value 1; the worked example
uses `01` for RSA-sign-encrypt). -/
def PubKeyAlgoRSA : Nat := 1

/-- Modelled from the spec: the wire code of RSA (sign only),
`PubKeyAlgoRSASignOnly` of the packet package (RFC 4880 value 3). -/
def PubKeyAlgoRSASignOnly : Nat := 3

/-- Modelled from the spec: the wire code of DSA, `PubKeyAlgoDSA` of the
packet package (RFC 4880 value 17). -/
def PubKeyAlgoDSA : Nat := 17

/-- The `SignatureV3` record.  `SigType`, `PubKeyAlgo` and the two `HashTag`
octets are byte-sized integers in Go (`uint8` based types and `[2]byte`),
`IssuerKeyId` is a `uint64`, `Hash` is the integer `crypto.Hash` identifier,
and the three `encoding.Field` slots are `Option MPI` — `none` is the unset
(nil interface) slot of a record whose signing step has not run, and a
`some` slot is a populated `encoding.MPI` carrying its decoded bytes.  (The
third possible Go state, a non-nil `*MPI` never populated, whose `Bytes()`
is a nil slice, is not represented: neither `parse` nor a signing step
produces it.) -/
structure SignatureV3 where
  sigType : Nat
  creationTime : GoTime
  issuerKeyId : Nat
  pubKeyAlgo : Nat
  hash : Nat
  hashTag1 : Nat
  hashTag2 : Nat
  rsaSignature : Option MPI
  dsaSigR : Option MPI
  dsaSigS : Option MPI
deriving DecidableEq, Repr

/-- The algorithm-conditioned tail of `parse` (lines 91–105): one MPI into
`RSASignature` for the RSA variants, two MPIs into `DSASigR` then `DSASigS`
for DSA, strictly in that order; the switch's `default` branch is the
defensive `panic("unreachable")`. -/
def parseMaterial (sig : SignatureV3) (bs : List Nat) :
    Except PgpError (SignatureV3 × List Nat) :=
  if sig.pubKeyAlgo = PubKeyAlgoRSA ∨ sig.pubKeyAlgo = PubKeyAlgoRSASignOnly then
    match MPI.readFrom bs with
    | .ok (m, rest) => .ok ({ sig with rsaSignature := some m }, rest)
    | .error e => .error e
  else if sig.pubKeyAlgo = PubKeyAlgoDSA then
    match MPI.readFrom bs with
    | .ok (r, rest) =>
      match MPI.readFrom rest with
      | .ok (s, rest2) =>
          .ok ({ sig with dsaSigR := some r, dsaSigS := some s }, rest2)
      | .error e => .error e
    | .error e => .error e
  else .error .internalFault

/-- `parse` after the version and hashed-material-length bytes (lines
56–105): five hashed octets (signature type and big-endian creation time),
eight key-id octets, the public-key-algorithm and hash-algorithm octets read
together and then gated, the two hash-tag octets, and the material tail.
Every short read is the truncation error `readFull` reports. -/
def parseAfterHeader (bs : List Nat) : Except PgpError (SignatureV3 × List Nat) :=
  match bs with
  | st :: t3 :: t2 :: t1 :: t0 :: rest =>
    match rest with
    | k7 :: k6 :: k5 :: k4 :: k3 :: k2 :: k1 :: k0 :: rest2 =>
      match rest2 with
      | pk :: hid :: rest3 =>
        if pk = PubKeyAlgoRSA ∨ pk = PubKeyAlgoRSASignOnly ∨ pk = PubKeyAlgoDSA then
          match hashIdToHashWithSha1Md5 hid with
          | some h =>
            match rest3 with
            | ht0 :: ht1 :: rest4 =>
              parseMaterial
                { sigType := st
                  creationTime := timeUnix (beU32 t3 t2 t1 t0)
                  issuerKeyId := beU64 k7 k6 k5 k4 k3 k2 k1 k0
                  pubKeyAlgo := pk
                  hash := h
                  hashTag1 := ht0
                  hashTag2 := ht1
                  rsaSignature := none
                  dsaSigR := none
                  dsaSigS := none } rest4
            | _ => .error .ioTruncation
          | none => .error (.unsupportedHashFunction hid)
        else .error (.unsupportedPublicKeyAlgorithm pk)
      | _ => .error .ioTruncation
    | _ => .error .ioTruncation
  | _ => .error .ioTruncation

/-- `SignatureV3.parse` (lines 37–107): one version byte that must be 2 or
3, one hashed-material-length byte that must be 5, then the rest of the
record.  The value returned is the freshly populated record and the unread
remainder of the source. -/
def parse (bs : List Nat) : Except PgpError (SignatureV3 × List Nat) :=
  match bs with
  | [] => .error .ioTruncation
  | v :: rest =>
    if v < 2 ∨ 3 < v then .error (.unsupportedVersion v)
    else
      match rest with
      | [] => .error .ioTruncation
      | hl :: rest2 =>
        if hl ≠ 5 then .error (.unsupportedHashedLength hl)
        else parseAfterHeader rest2

/-- `SignatureV3.Serialize` (lines 111–155), modelled as the list of bytes
written to the sink together with the outcome, so the partially written
output of a failing run stays observable.  The stages mirror the source:
the five signature-type and creation-time bytes (the `byte(...)` and
`uint32(...)` conversions reduce modulo 256 and 2^32), the eight key-id
bytes, the four algorithm/hash-id/hash-tag bytes — written only after the
hash identifier resolves in the legacy table — then the material-presence
check of line 139, and finally the algorithm-conditioned MPI tail.

The check of line 139 and the tail call methods of the `encoding.Field`
interface slots, and a call on an unset (nil) slot is a Go nil-interface
dispatch — a runtime panic, not an error return, the `nilInterfacePanic`
outcome.  With both slots unset (a never-signed record) the check itself
panics on its first `Bytes()` call, after the 17 fixed bytes are written;
its `InvalidArgumentError` return is reachable only through non-nil
`encoding.MPI` objects whose decoded byte slice is nil, never-populated
objects that this model — whose `some` slots always carry their decoded
bytes — does not represent, so the model never returns
`missingSignatureMaterial`.  A record with signature material proceeds to
the switch, where an unset slot demanded by the algorithm branch likewise
panics — for DSA with only `DSASigS` unset the panic comes after
`DSASigR`'s encoded bytes are already written (line 147 before line 150).
The switch's `default` branch is the explicit defensive
`panic("impossible")`, the `internalFault` outcome. -/
def serializeRun (sig : SignatureV3) : List Nat × Option PgpError :=
  let p1 := sig.sigType % 256 :: u32be (goUint32OfInt sig.creationTime.unixSec)
  let p2 := u64be sig.issuerKeyId
  match hashToHashIdWithSha1Md5 sig.hash with
  | none => (p1 ++ p2, some (.unsupportedHashSerialize sig.hash))
  | some hid =>
    let p3 := [sig.pubKeyAlgo % 256, hid, sig.hashTag1, sig.hashTag2]
    match sig.rsaSignature, sig.dsaSigR with
    | none, none => (p1 ++ p2 ++ p3, some .nilInterfacePanic)
    | _, _ =>
      if sig.pubKeyAlgo = PubKeyAlgoRSA ∨ sig.pubKeyAlgo = PubKeyAlgoRSASignOnly then
        match sig.rsaSignature with
        | some m => (p1 ++ p2 ++ p3 ++ m.encodedBytes, none)
        | none => (p1 ++ p2 ++ p3, some .nilInterfacePanic)
      else if sig.pubKeyAlgo = PubKeyAlgoDSA then
        match sig.dsaSigR with
        | none => (p1 ++ p2 ++ p3, some .nilInterfacePanic)
        | some r =>
          match sig.dsaSigS with
          | some s =>
              (p1 ++ p2 ++ p3 ++ r.encodedBytes ++ s.encodedBytes, none)
          | none =>
              (p1 ++ p2 ++ p3 ++ r.encodedBytes, some .nilInterfacePanic)
      else (p1 ++ p2 ++ p3, some .internalFault)

/-- `Serialize` seen as a fallible function: the full output on success, the
error otherwise. -/
def serialize (sig : SignatureV3) : Except PgpError (List Nat) :=
  match serializeRun sig with
  | (bs, none) => .ok bs
  | (_, some e) => .error e

/-- Modelled from the spec: the fresh, empty hash accumulator the
cryptographic provider produces (`crypto.Hash.New`, §6) — the algorithm
identifier together with the data fed so far, initially none. -/
structure HashAccum where
  alg : Nat
  data : List Nat
deriving DecidableEq, Repr

/-- `SignatureV3.PrepareVerify` (lines 158–163), parameterised by the
runtime provider's capability predicate (`crypto.Hash.Available`, modelled
from the spec as an arbitrary Boolean function): an empty accumulator for
the record's hash algorithm when available, the unsupported-hash error
otherwise. -/
def prepareVerify (available : Nat → Bool) (sig : SignatureV3) :
    Except PgpError HashAccum :=
  if available sig.hash then .ok ⟨sig.hash, []⟩
  else .error .unsupportedHashVerify

/-- Well-formedness of a record about to be serialized: every fixed-width
field fits its wire field, the creation time is a representable whole-second
timestamp, the hash algorithm has a legacy wire code, and the signature
material has exactly the shape of the record's public-key algorithm. -/
def SignatureV3.wf (sig : SignatureV3) : Prop :=
  sig.sigType < 256 ∧
  0 ≤ sig.creationTime.unixSec ∧ sig.creationTime.unixSec < 4294967296 ∧
  sig.issuerKeyId < 18446744073709551616 ∧
  sig.hashTag1 < 256 ∧ sig.hashTag2 < 256 ∧
  (hashToHashIdWithSha1Md5 sig.hash).isSome ∧
  (((sig.pubKeyAlgo = PubKeyAlgoRSA ∨ sig.pubKeyAlgo = PubKeyAlgoRSASignOnly) ∧
      (∃ m, sig.rsaSignature = some m ∧ m.valid) ∧
      sig.dsaSigR = none ∧ sig.dsaSigS = none) ∨
    (sig.pubKeyAlgo = PubKeyAlgoDSA ∧ sig.rsaSignature = none ∧
      (∃ r, sig.dsaSigR = some r ∧ r.valid) ∧
      (∃ s, sig.dsaSigS = some s ∧ s.valid)))

instance (sig : SignatureV3) : Decidable sig.wf := by
  unfold SignatureV3.wf; infer_instance

/-- The record of the spec's worked example: signature type 0
(binary document), zero creation time and key id, RSA (sign and encrypt),
SHA-1, zero hash tag, and the single one-octet MPI `0x7F`. -/
def exampleSig : SignatureV3 :=
  { sigType := 0
    creationTime := timeUnix 0
    issuerKeyId := 0
    pubKeyAlgo := PubKeyAlgoRSA
    hash := 3
    hashTag1 := 0
    hashTag2 := 0
    rsaSignature := some ⟨1, [127]⟩
    dsaSigR := none
    dsaSigS := none }

/-- The worked example's byte sequence with the MPI length field written as
the two-octet field the wire actually carries (`00 01`), followed by the
single octet `0x7F`; the wildcard time, key-id and tag bytes are zero. -/
def exampleBytes : List Nat :=
  [3, 5, 0, 0, 0, 0, 0, 0, 0, 0, 0, 0, 0, 0, 0, 1, 2, 0, 0, 0, 1, 127]

theorem hashTable_inverse (h id : Nat)
    (hh : hashToHashIdWithSha1Md5 h = some id) :
    hashIdToHashWithSha1Md5 id = some h := by
  unfold hashToHashIdWithSha1Md5 at hh
  split_ifs at hh <;> simp at hh <;> subst_vars <;> rfl

theorem MPI.readFrom_encodedBytes (m : MPI) (hm : m.valid) (rest : List Nat) :
    MPI.readFrom (m.encodedBytes ++ rest) = .ok (m, rest) := by
  obtain ⟨hlt, hlen, hb⟩ := hm
  simp only [MPI.encodedBytes, List.cons_append, MPI.readFrom]
  have h1 : m.bitLength / 256 * 256 + m.bitLength % 256 = m.bitLength := by omega
  rw [h1, ← hlen]
  have h2 : ¬ (m.bytes ++ rest).length < m.bytes.length := by
    simp [List.length_append]
  simp [h2, List.take_left, List.drop_left]

theorem parseMaterial_first_error (sig : SignatureV3)
    (hpk : sig.pubKeyAlgo = PubKeyAlgoDSA) (t : List Nat) (e : PgpError)
    (h : MPI.readFrom t = .error e) : parseMaterial sig t = .error e := by
  unfold parseMaterial
  rw [hpk, if_neg (by decide), if_pos rfl, h]

/-- A record set to all zero values, with no signature material — the Go
zero value `SignatureV3{}` of a freshly constructed record. -/
def freshSig : SignatureV3 :=
  { sigType := 0
    creationTime := ⟨0, 0⟩
    issuerKeyId := 0
    pubKeyAlgo := 0
    hash := 0
    hashTag1 := 0
    hashTag2 := 0
    rsaSignature := none
    dsaSigR := none
    dsaSigS := none }

/-- C3: the claim — a freshly constructed record with no signature material
always fails `Serialize` with `MissingSignatureMaterial` before any of the
tail is written — is the behaviour line 140's own error message ("need to
call Sign, SignUserId or SignKey before Serialize") and the spec describe,
but the code cannot deliver it.  For the never-signed record both
`encoding.Field` slots are nil interfaces, so line 139's `Bytes()` call is
a nil-interface dispatch that panics after the 17 fixed bytes are written:
first conjunct, the hash field set to SHA-1 so the earlier hash resolution
passes.  The all-zero fresh record does not even reach the check — its zero
hash value has no legacy wire code, so `Serialize` fails at line 129 with
the unsupported-hash error after 13 bytes: second conjunct.  And no record
this model represents makes `Serialize` return `MissingSignatureMaterial`
at all — every outcome is success, a panic, or the unsupported-hash error:
third conjunct. -/
theorem missing_material_code_bug :
    serializeRun { freshSig with hash := 3 } =
      ([0, 0, 0, 0, 0, 0, 0, 0, 0, 0, 0, 0, 0, 0, 2, 0, 0],
        some .nilInterfacePanic) ∧
    serializeRun freshSig =
      ([0, 0, 0, 0, 0, 0, 0, 0, 0, 0, 0, 0, 0],
        some (.unsupportedHashSerialize 0)) ∧
    ∀ sig : SignatureV3,
      (serializeRun sig).2 ∈
        ([none, some .nilInterfacePanic, some .internalFault,
          some (.unsupportedHashSerialize sig.hash)] :
          List (Option PgpError)) := by
  refine ⟨by rfl, by rfl, fun sig => ?_⟩
  unfold serializeRun
  split
  · simp
  · split
    · simp
    · split_ifs <;> (try split) <;> (try split) <;> simp

/-- C2: `Serialize` emits no version byte and no hashed-material-length
byte: whatever the outcome, the first five bytes it writes are the
signature-type byte followed by the four big-endian creation-time bytes —
the fields at offsets 2–6 of the wire layout `parse` reads — and on success
the first output byte is the signature-type byte, not a version byte. -/
theorem serialize_no_header (sig : SignatureV3) :
    (serializeRun sig).1.take 5 =
      sig.sigType % 256 :: u32be (goUint32OfInt sig.creationTime.unixSec) ∧
    ∀ body, serialize sig = .ok body →
      body.head? = some (sig.sigType % 256) := by
  have hfst : (serializeRun sig).1.take 5 =
      sig.sigType % 256 :: u32be (goUint32OfInt sig.creationTime.unixSec) := by
    unfold serializeRun
    split <;> (try split) <;> (try split_ifs) <;> (try split) <;>
      (try split) <;> simp [u32be]
  refine ⟨hfst, ?_⟩
  intro body hser
  have h1 : body = (serializeRun sig).1 := by
    unfold serialize at hser
    rcases hrun : serializeRun sig with ⟨out, e?⟩
    rw [hrun] at hser
    rcases e? with _ | e
    · injection hser with h
      exact h.symm
    · exact absurd hser (by simp)
  rcases hl : (serializeRun sig).1 with _ | ⟨a, l⟩
  · rw [hl] at hfst
    exact absurd hfst (by simp)
  · rw [hl] at hfst
    simp only [List.take_succ_cons] at hfst
    injection hfst with h2 _
    rw [h1, hl]
    simp [h2]

theorem serialize_no_header_witness :
    ([0, 0, 0, 0, 0, 0, 0, 0, 0, 0, 0, 0, 0, 1, 2, 0, 0, 0, 1, 127] :
      List Nat).head? = some 0 :=
  (serialize_no_header exampleSig).2 _ (by rfl)


theorem serializeRun_rsa (sig : SignatureV3) (m : MPI) (hid : Nat)
    (hpk : sig.pubKeyAlgo = PubKeyAlgoRSA ∨ sig.pubKeyAlgo = PubKeyAlgoRSASignOnly)
    (hhid : hashToHashIdWithSha1Md5 sig.hash = some hid)
    (hm : sig.rsaSignature = some m) :
    serializeRun sig =
      (sig.sigType % 256 :: u32be (goUint32OfInt sig.creationTime.unixSec) ++
        u64be sig.issuerKeyId ++
        [sig.pubKeyAlgo % 256, hid, sig.hashTag1, sig.hashTag2] ++
        m.encodedBytes, none) := by
  unfold serializeRun
  rw [hhid]
  simp only [hm]
  rw [if_pos hpk]

theorem parse_header (v : Nat) (hv : v = 2 ∨ v = 3) (rest : List Nat) :
    parse (v :: 5 :: rest) = parseAfterHeader rest := by
  rcases hv with h | h <;> subst h <;> rfl

theorem parseAfterHeader_ok
    (st t3 t2 t1 t0 k7 k6 k5 k4 k3 k2 k1 k0 pk hid ht0 ht1 : Nat)
    (hsh : Nat) (tail : List Nat)
    (hpk : pk = PubKeyAlgoRSA ∨ pk = PubKeyAlgoRSASignOnly ∨ pk = PubKeyAlgoDSA)
    (hhid : hashIdToHashWithSha1Md5 hid = some hsh) :
    parseAfterHeader (st :: t3 :: t2 :: t1 :: t0 :: k7 :: k6 :: k5 :: k4 ::
        k3 :: k2 :: k1 :: k0 :: pk :: hid :: ht0 :: ht1 :: tail) =
      parseMaterial
        { sigType := st
          creationTime := timeUnix (beU32 t3 t2 t1 t0)
          issuerKeyId := beU64 k7 k6 k5 k4 k3 k2 k1 k0
          pubKeyAlgo := pk
          hash := hsh
          hashTag1 := ht0
          hashTag2 := ht1
          rsaSignature := none
          dsaSigR := none
          dsaSigS := none } tail := by
  simp only [parseAfterHeader, hhid, if_pos hpk]

theorem parseMaterial_dsa (sig : SignatureV3) (r s : MPI)
    (hr : r.valid) (hs : s.valid) (rest : List Nat)
    (hpk : sig.pubKeyAlgo = PubKeyAlgoDSA) :
    parseMaterial sig (r.encodedBytes ++ s.encodedBytes ++ rest) =
      .ok ({ sig with dsaSigR := some r, dsaSigS := some s }, rest) := by
  unfold parseMaterial
  rw [hpk, if_neg (by decide), if_pos rfl, List.append_assoc]
  simp only [MPI.readFrom_encodedBytes r hr, MPI.readFrom_encodedBytes s hs]

theorem serializeRun_dsa (sig : SignatureV3) (r s : MPI) (hid : Nat)
    (hpk : sig.pubKeyAlgo = PubKeyAlgoDSA)
    (hhid : hashToHashIdWithSha1Md5 sig.hash = some hid)
    (hrsa : sig.rsaSignature = none)
    (hr : sig.dsaSigR = some r) (hs : sig.dsaSigS = some s) :
    serializeRun sig =
      (sig.sigType % 256 :: u32be (goUint32OfInt sig.creationTime.unixSec) ++
        u64be sig.issuerKeyId ++
        [sig.pubKeyAlgo % 256, hid, sig.hashTag1, sig.hashTag2] ++
        r.encodedBytes ++ s.encodedBytes, none) := by
  unfold serializeRun
  rw [hhid]
  simp only [hrsa, hr, hs, hpk]
  rw [if_neg (by decide)]
  simp

/-- C5: an input whose public-key-algorithm byte (offset 15) is 0 or any
code outside {RSA-sign-encrypt, RSA-sign-only, DSA} always fails decode with
`UnsupportedPublicKeyAlgorithm`, whatever bytes follow: the result is the
same for every tail, so no byte of the hash-tag or signature-material tail
is ever consumed. -/
theorem parse_algo_gating (v : Nat) (hv : v = 2 ∨ v = 3)
    (st t3 t2 t1 t0 k7 k6 k5 k4 k3 k2 k1 k0 pk hid : Nat)
    (hpk1 : pk ≠ PubKeyAlgoRSA) (hpk2 : pk ≠ PubKeyAlgoRSASignOnly)
    (hpk3 : pk ≠ PubKeyAlgoDSA) (tail : List Nat) :
    parse (v :: 5 :: st :: t3 :: t2 :: t1 :: t0 :: k7 :: k6 :: k5 :: k4 ::
        k3 :: k2 :: k1 :: k0 :: pk :: hid :: tail) =
      .error (.unsupportedPublicKeyAlgorithm pk) := by
  rw [parse_header v hv]
  simp only [parseAfterHeader]
  rw [if_neg (by tauto)]

theorem parse_algo_gating_witness :
    parse (3 :: 5 :: 0 :: 0 :: 0 :: 0 :: 0 :: 0 :: 0 :: 0 :: 0 ::
        0 :: 0 :: 0 :: 0 :: 0 :: 2 :: [0, 0, 0, 1, 127]) =
      .error (.unsupportedPublicKeyAlgorithm 0) :=
  parse_algo_gating 3 (Or.inr rfl) 0 0 0 0 0 0 0 0 0 0 0 0 0 0 2
    (by decide) (by decide) (by decide) [0, 0, 0, 1, 127]

/-- C7: on a DSA input, the first wire MPI is read into `r` and the second
into `s`, strictly in that order; and when reading the first integer fails,
that failure is the result of the whole decode — the second integer is never
attempted. -/
theorem parse_dsa_order (v : Nat) (hv : v = 2 ∨ v = 3)
    (st t3 t2 t1 t0 k7 k6 k5 k4 k3 k2 k1 k0 hid hsh ht0 ht1 : Nat)
    (hhid : hashIdToHashWithSha1Md5 hid = some hsh)
    (r s : MPI) (hr : r.valid) (hs : s.valid) (rest : List Nat) :
    parse (v :: 5 :: st :: t3 :: t2 :: t1 :: t0 :: k7 :: k6 :: k5 :: k4 ::
        k3 :: k2 :: k1 :: k0 :: PubKeyAlgoDSA :: hid :: ht0 :: ht1 ::
        (r.encodedBytes ++ s.encodedBytes ++ rest)) =
      .ok ({ sigType := st
             creationTime := timeUnix (beU32 t3 t2 t1 t0)
             issuerKeyId := beU64 k7 k6 k5 k4 k3 k2 k1 k0
             pubKeyAlgo := PubKeyAlgoDSA
             hash := hsh
             hashTag1 := ht0
             hashTag2 := ht1
             rsaSignature := none
             dsaSigR := some r
             dsaSigS := some s }, rest) ∧
    ∀ t e, MPI.readFrom t = .error e →
      parse (v :: 5 :: st :: t3 :: t2 :: t1 :: t0 :: k7 :: k6 :: k5 :: k4 ::
          k3 :: k2 :: k1 :: k0 :: PubKeyAlgoDSA :: hid :: ht0 :: ht1 :: t) =
        .error e := by
  constructor
  · rw [parse_header v hv,
      parseAfterHeader_ok _ _ _ _ _ _ _ _ _ _ _ _ _ _ _ _ _ hsh _
        (Or.inr (Or.inr rfl)) hhid]
    rw [parseMaterial_dsa _ r s hr hs rest rfl]
  · intro t e he
    rw [parse_header v hv,
      parseAfterHeader_ok _ _ _ _ _ _ _ _ _ _ _ _ _ _ _ _ _ hsh _
        (Or.inr (Or.inr rfl)) hhid]
    exact parseMaterial_first_error _ rfl t e he

theorem parse_dsa_order_witness :
    parse (3 :: 5 :: 0 :: 0 :: 0 :: 0 :: 0 :: 0 :: 0 :: 0 :: 0 ::
        0 :: 0 :: 0 :: 0 :: 17 :: 2 :: 0 :: 0 ::
        ([0, 2, 3] ++ [0, 1, 1] ++ [])) =
      .ok ({ sigType := 0
             creationTime := timeUnix 0
             issuerKeyId := 0
             pubKeyAlgo := PubKeyAlgoDSA
             hash := 3
             hashTag1 := 0
             hashTag2 := 0
             rsaSignature := none
             dsaSigR := some ⟨2, [3]⟩
             dsaSigS := some ⟨1, [1]⟩ }, []) :=
  (parse_dsa_order 3 (Or.inr rfl) 0 0 0 0 0 0 0 0 0 0 0 0 0 2 3 0 0 rfl
    ⟨2, [3]⟩ ⟨1, [1]⟩ (by decide) (by decide) []).1

/-- C10: `PrepareVerify` asks the runtime provider for the record's hash
algorithm: exactly when the provider supports it, the result is a fresh,
empty accumulator for that algorithm; otherwise it is the unsupported-hash
error.  The record itself is never touched — `prepareVerify` is a pure
function of it. -/
theorem prepareVerify_spec (available : Nat → Bool) (sig : SignatureV3) :
    (available sig.hash = true →
      prepareVerify available sig = .ok ⟨sig.hash, []⟩) ∧
    (available sig.hash = false →
      prepareVerify available sig = .error .unsupportedHashVerify) := by
  constructor <;> intro h <;> simp [prepareVerify, h]

theorem prepareVerify_spec_witness :
    prepareVerify (fun _ => true) exampleSig = .ok ⟨3, []⟩ ∧
    prepareVerify (fun _ => false) exampleSig = .error .unsupportedHashVerify :=
  ⟨(prepareVerify_spec (fun _ => true) exampleSig).1 rfl,
   (prepareVerify_spec (fun _ => false) exampleSig).2 rfl⟩


theorem MPI.readFrom_error_eq (bs : List Nat) (e : PgpError)
    (h : MPI.readFrom bs = .error e) : e = .ioTruncation := by
  unfold MPI.readFrom at h
  split at h
  · dsimp only at h
    split_ifs at h
    injection h with h'
    exact h'.symm
  · injection h with h'
    exact h'.symm

theorem parseMaterial_error_shape (sig : SignatureV3) (bs : List Nat)
    (e : PgpError) (h : parseMaterial sig bs = .error e) :
    e = .ioTruncation ∨ e = .internalFault := by
  unfold parseMaterial at h
  split_ifs at h
  · split at h
    · exact absurd h (by simp)
    · rename_i e' heq
      injection h with h'
      subst h'
      exact Or.inl (MPI.readFrom_error_eq _ _ heq)
  · split at h
    · split at h
      · exact absurd h (by simp)
      · rename_i e' heq
        injection h with h'
        subst h'
        exact Or.inl (MPI.readFrom_error_eq _ _ heq)
    · rename_i e' heq
      injection h with h'
      subst h'
      exact Or.inl (MPI.readFrom_error_eq _ _ heq)
  · injection h with h'
    exact Or.inr h'.symm

theorem parseAfterHeader_error_shape (bs : List Nat) (e : PgpError)
    (h : parseAfterHeader bs = .error e) :
    e = .ioTruncation ∨ e = .internalFault ∨
    (∃ a, e = .unsupportedPublicKeyAlgorithm a) ∨
    (∃ i, e = .unsupportedHashFunction i) := by
  unfold parseAfterHeader at h
  split at h
  · split at h
    · split at h
      · split_ifs at h
        · split at h
          · split at h
            · rcases parseMaterial_error_shape _ _ _ h with h1 | h1 <;> tauto
            · injection h with h'
              subst h'
              tauto
          · injection h with h'
            subst h'
            exact Or.inr (Or.inr (Or.inr ⟨_, rfl⟩))
        · injection h with h'
          subst h'
          exact Or.inr (Or.inr (Or.inl ⟨_, rfl⟩))
      · injection h with h'
        subst h'
        tauto
    · injection h with h'
      subst h'
      tauto
  · injection h with h'
    subst h'
    tauto


theorem parse_version_error_iff (bs : List Nat) (v0 : Nat) :
    parse bs = .error (.unsupportedVersion v0) ↔
      bs.head? = some v0 ∧ (v0 < 2 ∨ 3 < v0) := by
  constructor
  · intro h
    unfold parse at h
    split at h
    · simp at h
    · rename_i v rest
      split_ifs at h with hcond
      · injection h with h'
        injection h' with h''
        subst h''
        exact ⟨rfl, hcond⟩
      · split at h
        · simp at h
        · split_ifs at h
          · simp at h
          · rcases parseAfterHeader_error_shape _ _ h with h1 | h1 | ⟨a, h1⟩ | ⟨i, h1⟩ <;>
              simp at h1
  · rintro ⟨hhead, hcond⟩
    rcases bs with _ | ⟨v, rest⟩
    · simp at hhead
    · simp at hhead
      subst hhead
      simp only [parse]
      rw [if_pos hcond]

theorem parse_hashedLength_error_iff (bs : List Nat) (n : Nat) :
    parse bs = .error (.unsupportedHashedLength n) ↔
      ∃ v rest, bs = v :: n :: rest ∧ (v = 2 ∨ v = 3) ∧ n ≠ 5 := by
  constructor
  · intro h
    unfold parse at h
    split at h
    · simp at h
    · rename_i v rest
      split_ifs at h with hcond
      · simp at h
      · split at h
        · simp at h
        · rename_i hl rest2
          split_ifs at h with hl5
          · injection h with h'
            injection h' with h''
            subst h''
            exact ⟨v, rest2, rfl, by omega, hl5⟩
          · rcases parseAfterHeader_error_shape _ _ h with h1 | h1 | ⟨a, h1⟩ | ⟨i, h1⟩ <;>
              simp at h1
  · rintro ⟨v, rest, rfl, hv, hn⟩
    simp only [parse]
    rw [if_neg (by omega), if_pos hn]

/-- C6: decode fails with `UnsupportedVersion` exactly when the first byte
of the source is neither 2 nor 3, and with `UnsupportedHashedLength` exactly
when, the version byte being 2 or 3, the second byte is not 5; version
bytes 2 and 3 are both accepted — the worked example decodes identically
under either version byte. -/
theorem parse_version_hl_gating :
    (∀ v rest, (v < 2 ∨ 3 < v) →
      parse (v :: rest) = .error (.unsupportedVersion v)) ∧
    (∀ bs v, parse bs = .error (.unsupportedVersion v) →
      bs.head? = some v ∧ (v < 2 ∨ 3 < v)) ∧
    (∀ v n rest, (v = 2 ∨ v = 3) → n ≠ 5 →
      parse (v :: n :: rest) = .error (.unsupportedHashedLength n)) ∧
    (∀ bs n, parse bs = .error (.unsupportedHashedLength n) →
      ∃ v rest, bs = v :: n :: rest ∧ (v = 2 ∨ v = 3) ∧ n ≠ 5) ∧
    parse (3 :: List.drop 1 exampleBytes) = .ok (exampleSig, []) ∧
    parse (2 :: List.drop 1 exampleBytes) = .ok (exampleSig, []) := by
  refine ⟨?_, ?_, ?_, ?_, by rfl, by rfl⟩
  · intro v rest hcond
    exact (parse_version_error_iff (v :: rest) v).mpr ⟨rfl, hcond⟩
  · intro bs v h
    exact (parse_version_error_iff bs v).mp h
  · intro v n rest hv hn
    exact (parse_hashedLength_error_iff (v :: n :: rest) n).mpr ⟨v, rest, rfl, hv, hn⟩
  · intro bs n h
    exact (parse_hashedLength_error_iff bs n).mp h

theorem parse_version_hl_gating_witness :
    parse (4 :: List.drop 1 exampleBytes) = .error (.unsupportedVersion 4) ∧
    parse (3 :: 4 :: List.drop 2 exampleBytes) =
      .error (.unsupportedHashedLength 4) ∧
    parse (255 :: List.drop 1 exampleBytes) = .error (.unsupportedVersion 255) ∧
    parse (1 :: List.drop 1 exampleBytes) = .error (.unsupportedVersion 1) ∧
    parse (3 :: 6 :: List.drop 2 exampleBytes) =
      .error (.unsupportedHashedLength 6) :=
  ⟨parse_version_hl_gating.1 4 _ (by omega),
   parse_version_hl_gating.2.2.1 3 4 _ (Or.inr rfl) (by omega),
   parse_version_hl_gating.1 255 _ (by omega),
   parse_version_hl_gating.1 1 _ (by omega),
   parse_version_hl_gating.2.2.1 3 6 _ (Or.inr rfl) (by omega)⟩


theorem parseMaterial_ok_inv (s0 : SignatureV3) (bs : List Nat)
    (sig : SignatureV3) (rest : List Nat)
    (h : parseMaterial s0 bs = .ok (sig, rest)) :
    ((s0.pubKeyAlgo = PubKeyAlgoRSA ∨ s0.pubKeyAlgo = PubKeyAlgoRSASignOnly) ∧
      ∃ m, sig = { s0 with rsaSignature := some m }) ∨
    (s0.pubKeyAlgo = PubKeyAlgoDSA ∧
      ∃ r s, sig = { s0 with dsaSigR := some r, dsaSigS := some s }) := by
  unfold parseMaterial at h
  split_ifs at h with h1 h2
  · split at h
    · simp only [Except.ok.injEq, Prod.mk.injEq] at h
      exact Or.inl ⟨h1, _, h.1.symm⟩
    · simp at h
  · split at h
    · split at h
      · simp only [Except.ok.injEq, Prod.mk.injEq] at h
        exact Or.inr ⟨h2, _, _, h.1.symm⟩
      · simp at h
    · simp at h

theorem parse_ok_fields (bs : List Nat) (sig : SignatureV3) (rest : List Nat)
    (h : parse bs = .ok (sig, rest)) :
    (((sig.pubKeyAlgo = PubKeyAlgoRSA ∨ sig.pubKeyAlgo = PubKeyAlgoRSASignOnly) ∧
        (∃ m, sig.rsaSignature = some m) ∧
        sig.dsaSigR = none ∧ sig.dsaSigS = none) ∨
      (sig.pubKeyAlgo = PubKeyAlgoDSA ∧ sig.rsaSignature = none ∧
        (∃ r, sig.dsaSigR = some r) ∧ (∃ s, sig.dsaSigS = some s))) ∧
    sig.creationTime =
      ⟨(beU32 (bs.getD 3 0) (bs.getD 4 0) (bs.getD 5 0) (bs.getD 6 0) : Nat), 0⟩ := by
  unfold parse at h
  split at h
  · simp at h
  · rename_i v rest0
    split_ifs at h
    split at h
    · simp at h
    · rename_i hl rest2
      split_ifs at h
      unfold parseAfterHeader at h
      split at h
      · rename_i st t3 t2 t1 t0 rest3
        split at h
        · rename_i k7 k6 k5 k4 k3 k2 k1 k0 rest4
          split at h
          · rename_i pk hid rest5
            split_ifs at h
            split at h
            · rename_i hsh hheq
              split at h
              · rename_i ht0 ht1 rest6
                rcases parseMaterial_ok_inv _ _ _ _ h with
                  ⟨hpk, m, hsig⟩ | ⟨hpk, r, s, hsig⟩ <;> subst hsig
                · exact ⟨Or.inl ⟨hpk, ⟨m, rfl⟩, rfl, rfl⟩, rfl⟩
                · exact ⟨Or.inr ⟨hpk, rfl, ⟨r, rfl⟩, ⟨s, rfl⟩⟩, rfl⟩
              · simp at h
            · simp at h
          · simp at h
        · simp at h
      · simp at h


/-- C8: after every successful decode, exactly one of the two
signature-material shapes is populated, determined solely by the
public-key-algorithm field: for the RSA variants the single RSA integer is
set and the DSA pair unset, for DSA the pair `r`,`s` is set and the RSA
integer unset; no other algorithm value can appear in a decoded record. -/
theorem parse_material_shape (bs : List Nat) (sig : SignatureV3)
    (rest : List Nat) (h : parse bs = .ok (sig, rest)) :
    ((sig.pubKeyAlgo = PubKeyAlgoRSA ∨ sig.pubKeyAlgo = PubKeyAlgoRSASignOnly) ∧
      (∃ m, sig.rsaSignature = some m) ∧
      sig.dsaSigR = none ∧ sig.dsaSigS = none) ∨
    (sig.pubKeyAlgo = PubKeyAlgoDSA ∧ sig.rsaSignature = none ∧
      (∃ r, sig.dsaSigR = some r) ∧ (∃ s, sig.dsaSigS = some s)) :=
  (parse_ok_fields bs sig rest h).1

theorem parse_material_shape_witness :
    (exampleSig.pubKeyAlgo = PubKeyAlgoRSA ∨
      exampleSig.pubKeyAlgo = PubKeyAlgoRSASignOnly) ∧
      (∃ m, exampleSig.rsaSignature = some m) ∧
      exampleSig.dsaSigR = none ∧ exampleSig.dsaSigS = none := by
  rcases parse_material_shape exampleBytes exampleSig [] (by rfl) with h | h
  · exact h
  · exact absurd h.1 (by decide)

/-- C9: the creation time goes to the wire as the four big-endian bytes of
the seconds value reduced modulo 2^32 (bytes 1–4 of the serializer's
output): sub-second precision never influences the output, and an
out-of-range seconds value silently wraps modulo 2^32 instead of failing.
Conversely, every successful decode stores the four big-endian time bytes
(offsets 3–6 of its input) as a whole-second timestamp with zero
nanoseconds. -/
theorem creation_time_wire (sig : SignatureV3) :
    ((serializeRun sig).1.drop 1).take 4 =
      u32be ((sig.creationTime.unixSec % 4294967296).toNat) ∧
    (∀ n, serializeRun
        { sig with creationTime := ⟨sig.creationTime.unixSec, n⟩ } =
      serializeRun sig) ∧
    (∀ bs s rest, parse bs = .ok (s, rest) →
      s.creationTime =
        ⟨(beU32 (bs.getD 3 0) (bs.getD 4 0) (bs.getD 5 0) (bs.getD 6 0) : Nat),
          0⟩) := by
  refine ⟨?_, fun n => rfl, fun bs s rest h => (parse_ok_fields bs s rest h).2⟩
  unfold serializeRun
  split <;> (try split) <;> (try split_ifs) <;> (try split) <;>
    (try split) <;> simp [u32be, goUint32OfInt]

theorem creation_time_wire_witness :
    exampleSig.creationTime = ⟨(beU32 0 0 0 0 : Nat), 0⟩ :=
  (creation_time_wire exampleSig).2.2 exampleBytes exampleSig [] (by rfl)


theorem parse_truncated_fixed (v : Nat) (hv : v = 2 ∨ v = 3)
    (x1 x2 x3 x4 x5 x6 x7 x8 x9 x10 x11 x12 x13 pk hid ht0 ht1 : Nat)
    (hpk : pk = PubKeyAlgoRSA ∨ pk = PubKeyAlgoRSASignOnly ∨ pk = PubKeyAlgoDSA)
    (hsh : Nat) (hinv : hashIdToHashWithSha1Md5 hid = some hsh)
    (tail : List Nat) (n : Nat) (hn : n ∈ ([0, 1, 6, 14, 16, 18] : List Nat)) :
    parse ((v :: 5 :: x1 :: x2 :: x3 :: x4 :: x5 :: x6 :: x7 :: x8 :: x9 ::
        x10 :: x11 :: x12 :: x13 :: pk :: hid :: ht0 :: ht1 :: tail).take n) =
      .error .ioTruncation := by
  have hvn : ¬ (v < 2 ∨ 3 < v) := by omega
  simp only [List.mem_cons, List.not_mem_nil, or_false] at hn
  rcases hn with rfl | rfl | rfl | rfl | rfl | rfl
  · rfl
  · show parse [v] = _
    simp only [parse]
    rw [if_neg hvn]
  · show parse [v, 5, x1, x2, x3, x4] = _
    rw [parse_header v hv]
    simp [parseAfterHeader]
  · show parse [v, 5, x1, x2, x3, x4, x5, x6, x7, x8, x9, x10, x11, x12] = _
    rw [parse_header v hv]
    simp [parseAfterHeader]
  · show parse [v, 5, x1, x2, x3, x4, x5, x6, x7, x8, x9, x10, x11, x12,
      x13, pk] = _
    rw [parse_header v hv]
    simp [parseAfterHeader]
  · show parse [v, 5, x1, x2, x3, x4, x5, x6, x7, x8, x9, x10, x11, x12,
      x13, pk, hid, ht0] = _
    rw [parse_header v hv]
    simp only [parseAfterHeader, hinv, if_pos hpk]

theorem MPI.readFrom_one (b0 : Nat) : MPI.readFrom [b0] = .error .ioTruncation :=
  rfl

theorem MPI.readFrom_trunc_body (m : MPI) (hm : m.valid) (k : Nat)
    (hk : k < m.bytes.length) :
    MPI.readFrom (m.bitLength / 256 :: m.bitLength % 256 :: m.bytes.take k) =
      .error .ioTruncation := by
  obtain ⟨hlt, hlen, hb⟩ := hm
  simp only [MPI.readFrom]
  have h1 : m.bitLength / 256 * 256 + m.bitLength % 256 = m.bitLength := by omega
  rw [h1, ← hlen]
  rw [if_pos (by simp [List.length_take]; omega)]

theorem parseMaterial_rsa_error (sig : SignatureV3)
    (hpk : sig.pubKeyAlgo = PubKeyAlgoRSA ∨ sig.pubKeyAlgo = PubKeyAlgoRSASignOnly)
    (t : List Nat) (e : PgpError) (h : MPI.readFrom t = .error e) :
    parseMaterial sig t = .error e := by
  unfold parseMaterial
  rw [if_pos hpk, h]

theorem parseMaterial_dsa_second_error (sig : SignatureV3)
    (hpk : sig.pubKeyAlgo = PubKeyAlgoDSA) (r : MPI) (hr : r.valid)
    (t : List Nat) (e : PgpError) (h : MPI.readFrom t = .error e) :
    parseMaterial sig (r.encodedBytes ++ t) = .error e := by
  unfold parseMaterial
  rw [hpk, if_neg (by decide), if_pos rfl, MPI.readFrom_encodedBytes r hr t]
  simp [h]


/-- The input lengths at which the wire image `v :: 5 :: Serialize-output`
of a record ends exactly one byte short of a required field of `parse`:
short of the version byte (0), of the hashed-material-length byte (1), of
the five hashed bytes (6), of the eight key-id bytes (14), of the
algorithm and hash-id pair read together (16), of the two hash-tag bytes
(18), and, per material shape, short of each MPI's two-octet bit-count
field and of the last octet of each nonempty MPI body. -/
def shortPositions (sig : SignatureV3) : List Nat :=
  [0, 1, 6, 14, 16, 18] ++
  (if sig.pubKeyAlgo = PubKeyAlgoDSA then
    match sig.dsaSigR, sig.dsaSigS with
    | some r, some s =>
        [20] ++ (if r.bytes.length = 0 then [] else [20 + r.bytes.length]) ++
        [22 + r.bytes.length] ++
        (if s.bytes.length = 0 then []
         else [22 + r.bytes.length + s.bytes.length])
    | _, _ => []
  else
    match sig.rsaSignature with
    | some m =>
        [20] ++ (if m.bytes.length = 0 then [] else [20 + m.bytes.length])
    | none => [])

/-- C4: a byte source that ends exactly one byte short of any required
field of a record's wire image makes decode fail with the truncation-class
I/O error — never a format-validity error, and never successfully. -/
theorem parse_truncation (sig : SignatureV3) (hwf : sig.wf) (v : Nat)
    (hv : v = 2 ∨ v = 3) (body : List Nat) (hser : serialize sig = .ok body)
    (n : Nat) (hn : n ∈ shortPositions sig) :
    parse ((v :: 5 :: body).take n) = .error .ioTruncation := by
  obtain ⟨hst, hsec0, hsec1, hkid, htg1, htg2, hhash, hshape⟩ := hwf
  obtain ⟨hid, hhid⟩ := Option.isSome_iff_exists.mp hhash
  have hinv := hashTable_inverse sig.hash hid hhid
  rcases hshape with ⟨hpk, ⟨m, hm, hmv⟩, hdr, hds⟩ |
    ⟨hpk, hrsa, ⟨r, hr, hrv⟩, ⟨s, hs, hsv⟩⟩
  · -- RSA variants
    have hpkne : ¬ sig.pubKeyAlgo = PubKeyAlgoDSA := by
      rcases hpk with h | h <;> rw [h] <;> decide
    have hpk256 : sig.pubKeyAlgo % 256 = sig.pubKeyAlgo := by
      rcases hpk with h | h <;> rw [h] <;> rfl
    have hpk3 : sig.pubKeyAlgo = PubKeyAlgoRSA ∨
        sig.pubKeyAlgo = PubKeyAlgoRSASignOnly ∨
        sig.pubKeyAlgo = PubKeyAlgoDSA := by tauto
    have hrun := serializeRun_rsa sig m hid hpk hhid hm
    simp only [serialize, hrun] at hser
    injection hser with hbody
    subst hbody
    unfold shortPositions at hn
    rw [if_neg hpkne, hm] at hn
    rw [hpk256]
    simp only [u32be, u64be, List.cons_append, List.nil_append,
      List.append_assoc] at hn ⊢
    simp only [List.mem_cons] at hn
    rcases hn with rfl | rfl | rfl | rfl | rfl | rfl | rfl | hn
    · exact parse_truncated_fixed v hv _ _ _ _ _ _ _ _ _ _ _ _ _ _ _ _ _
        hpk3 sig.hash hinv _ _ (by decide)
    · exact parse_truncated_fixed v hv _ _ _ _ _ _ _ _ _ _ _ _ _ _ _ _ _
        hpk3 sig.hash hinv _ _ (by decide)
    · exact parse_truncated_fixed v hv _ _ _ _ _ _ _ _ _ _ _ _ _ _ _ _ _
        hpk3 sig.hash hinv _ _ (by decide)
    · exact parse_truncated_fixed v hv _ _ _ _ _ _ _ _ _ _ _ _ _ _ _ _ _
        hpk3 sig.hash hinv _ _ (by decide)
    · exact parse_truncated_fixed v hv _ _ _ _ _ _ _ _ _ _ _ _ _ _ _ _ _
        hpk3 sig.hash hinv _ _ (by decide)
    · exact parse_truncated_fixed v hv _ _ _ _ _ _ _ _ _ _ _ _ _ _ _ _ _
        hpk3 sig.hash hinv _ _ (by decide)
    · -- n = 20 : one byte short of the MPI bit-count field
      rw [show (20 : Nat) = 19 + 1 from rfl, List.take_add]
      simp only [List.take_succ_cons, List.take_zero, List.drop_succ_cons,
        List.drop_zero, MPI.encodedBytes, List.cons_append, List.nil_append]
      rw [parse_header v hv,
        parseAfterHeader_ok _ _ _ _ _ _ _ _ _ _ _ _ _ _ _ _ _ sig.hash _
          hpk3 hinv]
      refine parseMaterial_rsa_error _ ?_ _ _ (MPI.readFrom_one _)
      exact hpk
    · -- n = 20 + len : one byte short of the MPI body
      by_cases hz : m.bytes.length = 0
      · rw [if_pos hz] at hn
        simp at hn
      · rw [if_neg hz] at hn
        simp only [List.mem_singleton] at hn
        subst hn
        rw [show 20 + m.bytes.length =
            19 + (m.bytes.length - 1 + 1 + 1) from by omega, List.take_add]
        simp only [List.take_succ_cons, List.take_zero, List.drop_succ_cons,
          List.drop_zero, List.cons_append, List.nil_append]
        rw [show MPI.encodedBytes m =
            m.bitLength / 256 :: m.bitLength % 256 :: m.bytes from rfl]
        simp only [List.take_succ_cons, List.cons_append]
        rw [parse_header v hv,
          parseAfterHeader_ok _ _ _ _ _ _ _ _ _ _ _ _ _ _ _ _ _ sig.hash _
            hpk3 hinv]
        refine parseMaterial_rsa_error _ ?_ _ _
          (MPI.readFrom_trunc_body m hmv (m.bytes.length - 1) (by omega))
        exact hpk
  · -- DSA
    have hpk256 : sig.pubKeyAlgo % 256 = sig.pubKeyAlgo := by rw [hpk]; rfl
    have hpk3 : sig.pubKeyAlgo = PubKeyAlgoRSA ∨
        sig.pubKeyAlgo = PubKeyAlgoRSASignOnly ∨
        sig.pubKeyAlgo = PubKeyAlgoDSA := by tauto
    have hrun := serializeRun_dsa sig r s hid hpk hhid hrsa hr hs
    simp only [serialize, hrun] at hser
    injection hser with hbody
    subst hbody
    unfold shortPositions at hn
    rw [if_pos hpk, hr, hs] at hn
    rw [hpk256]
    simp only [u32be, u64be, List.cons_append, List.nil_append,
      List.append_assoc] at hn ⊢
    simp only [List.mem_cons, List.mem_append, List.mem_singleton] at hn
    rcases hn with rfl | rfl | rfl | rfl | rfl | rfl | rfl | hn | rfl | hn
    · exact parse_truncated_fixed v hv _ _ _ _ _ _ _ _ _ _ _ _ _ _ _ _ _
        hpk3 sig.hash hinv _ _ (by decide)
    · exact parse_truncated_fixed v hv _ _ _ _ _ _ _ _ _ _ _ _ _ _ _ _ _
        hpk3 sig.hash hinv _ _ (by decide)
    · exact parse_truncated_fixed v hv _ _ _ _ _ _ _ _ _ _ _ _ _ _ _ _ _
        hpk3 sig.hash hinv _ _ (by decide)
    · exact parse_truncated_fixed v hv _ _ _ _ _ _ _ _ _ _ _ _ _ _ _ _ _
        hpk3 sig.hash hinv _ _ (by decide)
    · exact parse_truncated_fixed v hv _ _ _ _ _ _ _ _ _ _ _ _ _ _ _ _ _
        hpk3 sig.hash hinv _ _ (by decide)
    · exact parse_truncated_fixed v hv _ _ _ _ _ _ _ _ _ _ _ _ _ _ _ _ _
        hpk3 sig.hash hinv _ _ (by decide)
    · -- n = 20 : one byte short of the first MPI bit-count field
      rw [show (20 : Nat) = 19 + 1 from rfl, List.take_add]
      simp only [List.take_succ_cons, List.take_zero, List.drop_succ_cons,
        List.drop_zero, MPI.encodedBytes, List.cons_append, List.nil_append,
        List.append_assoc]
      rw [parse_header v hv,
        parseAfterHeader_ok _ _ _ _ _ _ _ _ _ _ _ _ _ _ _ _ _ sig.hash _
          hpk3 hinv]
      refine parseMaterial_first_error _ ?_ _ _ (MPI.readFrom_one _)
      exact hpk
    · -- n = 20 + lenR : one byte short of the first MPI body
      by_cases hz : r.bytes.length = 0
      · rw [if_pos hz] at hn
        simp at hn
      · rw [if_neg hz] at hn
        simp only [List.mem_singleton] at hn
        subst hn
        rw [show 20 + r.bytes.length =
            19 + (r.bytes.length - 1 + 1 + 1) from by omega, List.take_add]
        simp only [List.take_succ_cons, List.take_zero, List.drop_succ_cons,
          List.drop_zero, List.cons_append, List.nil_append]
        rw [show MPI.encodedBytes r =
            r.bitLength / 256 :: r.bitLength % 256 :: r.bytes from rfl]
        simp only [List.take_succ_cons, List.cons_append]
        rw [List.take_append_of_le_length (by omega)]
        rw [parse_header v hv,
          parseAfterHeader_ok _ _ _ _ _ _ _ _ _ _ _ _ _ _ _ _ _ sig.hash _
            hpk3 hinv]
        refine parseMaterial_first_error _ ?_ _ _
          (MPI.readFrom_trunc_body r hrv (r.bytes.length - 1) (by omega))
        exact hpk
    · -- n = 22 + lenR : one byte short of the second MPI bit-count field
      rw [show 22 + r.bytes.length =
          19 + ((MPI.encodedBytes r).length + 1) from by
            simp [MPI.encodedBytes]; omega, List.take_add]
      simp only [List.take_succ_cons, List.take_zero, List.drop_succ_cons,
        List.drop_zero]
      rw [List.take_append]
      rw [show MPI.encodedBytes s =
          s.bitLength / 256 :: s.bitLength % 256 :: s.bytes from rfl]
      simp only [List.take_succ_cons, List.take_zero, List.cons_append,
        List.nil_append]
      rw [parse_header v hv,
        parseAfterHeader_ok _ _ _ _ _ _ _ _ _ _ _ _ _ _ _ _ _ sig.hash _
          hpk3 hinv]
      refine parseMaterial_dsa_second_error _ ?_ r hrv _ _
        (MPI.readFrom_one _)
      exact hpk
    · -- n = 22 + lenR + lenS : one byte short of the second MPI body
      by_cases hz : s.bytes.length = 0
      · rw [if_pos hz] at hn
        simp at hn
      · rw [if_neg hz] at hn
        simp only [List.mem_singleton] at hn
        subst hn
        rw [show 22 + r.bytes.length + s.bytes.length =
            19 + ((MPI.encodedBytes r).length +
              (s.bytes.length - 1 + 1 + 1)) from by
              simp [MPI.encodedBytes]; omega, List.take_add]
        simp only [List.take_succ_cons, List.take_zero, List.drop_succ_cons,
          List.drop_zero]
        rw [List.take_append]
        rw [show MPI.encodedBytes s =
            s.bitLength / 256 :: s.bitLength % 256 :: s.bytes from rfl]
        simp only [List.take_succ_cons, List.cons_append, List.nil_append]
        rw [parse_header v hv,
          parseAfterHeader_ok _ _ _ _ _ _ _ _ _ _ _ _ _ _ _ _ _ sig.hash _
            hpk3 hinv]
        refine parseMaterial_dsa_second_error _ ?_ r hrv _ _
          (MPI.readFrom_trunc_body s hsv (s.bytes.length - 1) (by omega))
        exact hpk


theorem parse_truncation_witness :
    parse ((3 :: 5 :: exampleBytes.drop 2).take 18) = .error .ioTruncation ∧
    parse ((3 :: 5 :: exampleBytes.drop 2).take 21) = .error .ioTruncation :=
  ⟨parse_truncation exampleSig (by decide) 3 (Or.inr rfl)
      (exampleBytes.drop 2) (by rfl) 18 (by decide),
   parse_truncation exampleSig (by decide) 3 (Or.inr rfl)
      (exampleBytes.drop 2) (by rfl) 21 (by decide)⟩

end SigV3
